import Mathlib

/-!
Shallow embedding of the Hager-Zhang line search of
`src/tensorflow_probability/python/optimizer/linesearch/hager_zhang.py`.

Numbers of the working floating-point dtype are modelled by `HZ.Fl`: the
finite representable values form an unbounded uniform grid indexed by `ℤ`
(one grid unit is one representable step, a "ulp" in the vocabulary of the
spec), together with the three non-finite IEEE values.  Products of a grid
value with one of the real scalar parameters of the algorithm round back to
the grid, as does the halving used for interval midpoints, and
`tf.math.nextafter` steps one grid unit toward its second argument.  Every
comparison involving `nan` is false, as in IEEE arithmetic.  The grid is
unbounded, so finite arithmetic never overflows; no claim below depends on
overflow of a finite sum.

The primitive interval operations `hzl.bracket`, `hzl.secant2` and
`hzl.update`, and the helpers `hzl.is_finite` and `hzl.val_where`, live in
`hager_zhang_lib.py`, which is code of this repository that is not under
`src/`.  They are modelled from the spec: `is_finite` and `val_where` get
concrete definitions following the spec text, and the three interval
primitives are black-box parameters (`HZ.Boxes`) constrained by the
contracts the spec states for them (sections 4.3-4.5, and the masking
discipline of sections 3 and 5): see `BracketContract`, `Secant2Contract`
and `UpdateContract`.

The batch of `n` independent searches is a family of per-element values
indexed by `Fin n`; the evaluation oracle is a per-element pure function
applied pointwise to the batched argument vector, matching the batching
contract of the source docstring.  `tf.while_loop` is embedded as
structural recursion on an explicit fuel argument; in both loops of the
source the fuel chosen is an exact upper bound on the possible number of
trips (the loop condition forces the tracked counter below the bound and
each trip increases the counter by at least one), so the fuel never cuts a
run short and the embedding computes precisely the while-loop fixpoint.
-/

namespace HZ

/-- Machine reals of the working dtype: finite grid values and the three
non-finite IEEE values. -/
inductive Fl where
  | fin (v : ℤ)
  | inf
  | ninf
  | nan
deriving DecidableEq

/-- Finiteness test on a single machine number (`tf.math.is_finite`). -/
def Fl.isFinite : Fl → Bool
  | .fin _ => true
  | _ => false

/-- Strict comparison; any comparison with `nan` is false. -/
def Fl.lt : Fl → Fl → Bool
  | .fin a, .fin b => decide (a < b)
  | .fin _, .inf => true
  | .ninf, .fin _ => true
  | .ninf, .inf => true
  | _, _ => false

/-- Non-strict comparison; any comparison with `nan` is false. -/
def Fl.le : Fl → Fl → Bool
  | .fin a, .fin b => decide (a ≤ b)
  | .fin _, .inf => true
  | .ninf, .fin _ => true
  | .ninf, .ninf => true
  | .ninf, .inf => true
  | .inf, .inf => true
  | _, _ => false

/-- Negation. -/
def Fl.neg : Fl → Fl
  | .fin v => .fin (-v)
  | .inf => .ninf
  | .ninf => .inf
  | .nan => .nan

/-- Addition; opposite infinities and `nan` give `nan`. -/
def Fl.add : Fl → Fl → Fl
  | .fin a, .fin b => .fin (a + b)
  | .fin _, .inf => .inf
  | .fin _, .ninf => .ninf
  | .inf, .fin _ => .inf
  | .ninf, .fin _ => .ninf
  | .inf, .inf => .inf
  | .ninf, .ninf => .ninf
  | _, _ => .nan

/-- Subtraction. -/
def Fl.sub (x y : Fl) : Fl := x.add y.neg

/-- Halving, used for interval midpoints; the result rounds to the nearest
grid value (ties toward the larger value, the floor of `(v + 1) / 2`). -/
def Fl.half : Fl → Fl
  | .fin v => .fin (Int.fdiv (v + 1) 2)
  | .inf => .inf
  | .ninf => .ninf
  | .nan => .nan

/-- Absolute value. -/
def Fl.abs : Fl → Fl
  | .fin v => .fin |v|
  | .inf => .inf
  | .ninf => .inf
  | .nan => .nan

/-- Product with an exact real scalar parameter of the algorithm
(shrinkage factors, the approximate-Wolfe threshold); the result rounds to
the nearest grid value (the value of `q * v` is `q.num * v / q.den`, and
the floor of `(2 * q.num * v + q.den) / (2 * q.den)` is its rounding). -/
def Fl.mulParam (x : Fl) (q : ℚ) : Fl :=
  match x with
  | .fin v => .fin (Int.fdiv (2 * q.num * v + (q.den : ℤ)) (2 * (q.den : ℤ)))
  | .inf => if 0 < q then .inf else if q < 0 then .ninf else .nan
  | .ninf => if 0 < q then .ninf else if q < 0 then .inf else .nan
  | .nan => .nan

/-- The step `tf.math.nextafter x y`: the representable value adjacent to
`x` in the direction of `y` (one grid unit), `x` itself when the arguments
are equal, and `nan` as soon as one argument is `nan`.  The unbounded grid
has no largest finite value, so stepping from an infinity stays there. -/
def Fl.nextafter : Fl → Fl → Fl
  | .nan, _ => .nan
  | _, .nan => .nan
  | .fin a, .fin b => if a < b then .fin (a + 1) else if b < a then .fin (a - 1) else .fin a
  | .fin a, .inf => .fin (a + 1)
  | .fin a, .ninf => .fin (a - 1)
  | .inf, _ => .inf
  | .ninf, _ => .ninf

/-- Source `_very_close(x, y)`, literally `tf.math.nextafter(x, y) >= y`. -/
def very_close (x y : Fl) : Bool := Fl.le y (Fl.nextafter x y)

/-- An evaluation point as returned by `value_and_gradients_function`: the
step `x`, the function value `f` and the derivative `df` there. -/
structure ValGrad where
  x : Fl
  f : Fl
  df : Fl
deriving DecidableEq

/-- Modelled from the spec: `hzl.is_finite` of one evaluation, true when
the function value and the derivative are both finite (section 4.2 calls an
evaluation non-finite when its "value/derivative" is). -/
def is_finite_vg (v : ValGrad) : Bool := v.f.isFinite && v.df.isFinite

/-- The evaluation oracle for a batch of `n` line searches: a pure
per-element function from a step length to an evaluation point.  A batched
call applies it pointwise to the argument vector (`eval_oracle`). -/
def Oracle (n : ℕ) := Fin n → Fl → ValGrad

/-- A batched oracle call on a vector of step lengths. -/
def eval_oracle {n : ℕ} (φ : Oracle n) (xs : Fin n → Fl) : Fin n → ValGrad :=
  fun i => φ i (xs i)

/-- Batched `tf.reduce_any` of a boolean mask. -/
def anyB {n : ℕ} (p : Fin n → Bool) : Bool := decide (∃ i, p i = true)

/-- Modelled from the spec: `hzl.val_where`, the elementwise masked select
of evaluation points (sections 5 and 9: per-element freezing is done with
elementwise select on boolean masks). -/
def val_where {n : ℕ} (c : Fin n → Bool) (a b : Fin n → ValGrad) : Fin n → ValGrad :=
  fun i => if c i then a i else b i

/-- Ceiling of the base-two logarithm of a natural number, by structural
recursion on an explicit fuel (`m` halvings always suffice). -/
def clog2_aux : ℕ → ℕ → ℕ
  | 0, _ => 0
  | fuel + 1, m => if m ≤ 1 then 0 else clog2_aux fuel ((m + 1) / 2) + 1

/-- The least `k` with `m ≤ 2 ^ k` (for `m ≥ 1`). -/
def clog2 (m : ℕ) : ℕ := clog2_aux m m

/-- The ceiling of the reciprocal of a positive rational. -/
def qceil_inv_nat (q : ℚ) : ℕ := (Int.fdiv ((q.den : ℤ) + q.num - 1) q.num).toNat

/-- The iteration ceiling of the repair loop, the source line
`iter_max = np.ceil(-np.log2(_machine_eps(dtype)))`: for an epsilon in
`(0, 1]` this is the ceiling of the base-two logarithm of its reciprocal,
computed exactly on the rational model of the epsilon.  For the machine
epsilon `2 ^ (-k)` of a binary dtype the value is `k` (see the C7
theorem for the float16/float32/float64 values 10, 23 and 52). -/
def iter_max_for (eps : ℚ) : ℕ := clog2 (qceil_inv_nat eps)

/-- The mask of elements the repair loop must fix, the source line
`to_fix = active & ~hzl.is_finite(val_c_input)`. -/
def init_to_fix {n : ℕ} (active : Fin n → Bool) (valC : Fin n → ValGrad) : Fin n → Bool :=
  fun i => active i && !(is_finite_vg (valC i))

/-- The argument vector of one batched oracle call of the repair loop, the
source line `next_c = where(to_fix, val_c.x * step_size_shrink_param, val_c.x)`. -/
def fix_step_next_x {n : ℕ} (shrink : ℚ) (valC : Fin n → ValGrad) (toFix : Fin n → Bool) :
    Fin n → Fl :=
  fun i => if toFix i then (valC i).x.mulParam shrink else (valC i).x

/-- Result of the step-size repair loop `_fix_step_size`: the loop counter
(also the number of batched oracle calls made), the final evaluations, the
final to-fix mask (the `fix_failed` output), and a ghost trace recording,
for each trip, the argument vector passed to the oracle together with the
to-fix mask at that trip. -/
structure FixResult (n : ℕ) where
  evals : ℕ
  valC : Fin n → ValGrad
  toFix : Fin n → Bool
  trace : List ((Fin n → Fl) × (Fin n → Bool))

/-- The `tf.while_loop` of `_fix_step_size`, with the loop condition
`(i < iter_max) & tf.reduce_any(to_fix)` and the body that shrinks the
still-broken steps and re-evaluates the batched oracle.  The recursion is
on an explicit fuel; called with `fuel = iter_max` and `i = 0` the fuel
runs out only when `i` has reached `iter_max`, where the loop condition is
false anyway, so this computes the exact while-loop fixpoint. -/
def fix_step_loop {n : ℕ} (φ : Oracle n) (shrink : ℚ) (iterMax : ℕ) :
    ℕ → ℕ → (Fin n → ValGrad) → (Fin n → Bool) → FixResult n
  | 0, i, valC, toFix => ⟨i, valC, toFix, []⟩
  | fuel + 1, i, valC, toFix =>
    if i < iterMax ∧ anyB toFix = true then
      let nextC := fix_step_next_x shrink valC toFix
      let nextVal := eval_oracle φ nextC
      let r := fix_step_loop φ shrink iterMax fuel (i + 1) nextVal
        (fun j => toFix j && !(is_finite_vg (nextVal j)))
      ⟨r.evals, r.valC, r.toFix, (nextC, toFix) :: r.trace⟩
    else ⟨i, valC, toFix, []⟩

/-- Source `_fix_step_size`. -/
def fix_step_size {n : ℕ} (φ : Oracle n) (valCInput : Fin n → ValGrad)
    (active : Fin n → Bool) (shrink : ℚ) (iterMax : ℕ) : FixResult n :=
  fix_step_loop φ shrink iterMax iterMax 0 valCInput (init_to_fix active valCInput)

/-- The loop-carried state of the search, the `HagerZhangLineSearchResult`
record of the source: per-element flags and bracket endpoints, shared
iteration and evaluation counters. -/
structure SearchState (n : ℕ) where
  converged : Fin n → Bool
  failed : Fin n → Bool
  func_evals : ℕ
  iterations : ℕ
  left : Fin n → ValGrad
  right : Fin n → ValGrad

/-- Output record of the black-box `hzl.bracket` as consumed by
`_bracket_and_search`: cumulative iteration and evaluation counters, a
per-element failure flag and the produced bracket. -/
structure BracketResult (n : ℕ) where
  iteration : ℕ
  failed : Fin n → Bool
  num_evals : ℕ
  left : Fin n → ValGrad
  right : Fin n → ValGrad

/-- Output record of the black-box `hzl.secant2` as consumed by
`_loop_body`: per-element convergence and failure signals, a cumulative
evaluation counter and the new bracket. -/
structure Secant2Result (n : ℕ) where
  converged : Fin n → Bool
  failed : Fin n → Bool
  num_evals : ℕ
  left : Fin n → ValGrad
  right : Fin n → ValGrad

/-- Output record of the black-box `hzl.update` as consumed by
`_line_search_inner_bisection`: an incremental iteration count, a
per-element failure flag, an incremental evaluation count and the new
bracket. -/
structure UpdateResult (n : ℕ) where
  iteration : ℕ
  failed : Fin n → Bool
  num_evals : ℕ
  left : Fin n → ValGrad
  right : Fin n → ValGrad

/-- Modelled from the spec: the three interval primitives of
`hager_zhang_lib.py` (`bracket`, `secant2`, `update`) consumed as black
boxes (spec sections 2, 4.3 and 4.4).  `bracket` receives the function
threshold and the initial interval state; `secant2` receives the zero-point
evaluation, the threshold and the current interval state; `update` receives
the threshold, the two current endpoints, the evaluated candidate point and
the active mask.  Each closes over the oracle and the remaining scalar
parameters. -/
structure Boxes (n : ℕ) where
  bracket : (Fin n → Fl) → SearchState n → BracketResult n
  secant2 : (Fin n → ValGrad) → (Fin n → Fl) → SearchState n → Secant2Result n
  update : (Fin n → Fl) → (Fin n → ValGrad) → (Fin n → ValGrad) → (Fin n → ValGrad) →
    (Fin n → Bool) → UpdateResult n

/-- Modelled from the spec: contract of `hzl.bracket` used by the
orchestration layer (spec sections 3 and 5): elements whose `converged` or
`failed` flag is already set are frozen, so their endpoints and failure
flag pass through unchanged. -/
structure BracketContract (n : ℕ)
    (br : (Fin n → Fl) → SearchState n → BracketResult n) : Prop where
  frozen_failed : ∀ fLim st i, (st.converged i || st.failed i) = true →
    (br fLim st).failed i = st.failed i
  frozen_left : ∀ fLim st i, (st.converged i || st.failed i) = true →
    (br fLim st).left i = st.left i
  frozen_right : ∀ fLim st i, (st.converged i || st.failed i) = true →
    (br fLim st).right i = st.right i

/-- Modelled from the spec: contract of `hzl.secant2` used by the
orchestration layer (spec sections 3 and 5): elements whose `converged` or
`failed` flag is already set are frozen, so their flags and endpoints pass
through unchanged. -/
structure Secant2Contract (n : ℕ)
    (s2 : (Fin n → ValGrad) → (Fin n → Fl) → SearchState n → Secant2Result n) : Prop where
  frozen_converged : ∀ v0 fLim st i, (st.converged i || st.failed i) = true →
    (s2 v0 fLim st).converged i = st.converged i
  frozen_failed : ∀ v0 fLim st i, (st.converged i || st.failed i) = true →
    (s2 v0 fLim st).failed i = st.failed i
  frozen_left : ∀ v0 fLim st i, (st.converged i || st.failed i) = true →
    (s2 v0 fLim st).left i = st.left i
  frozen_right : ∀ v0 fLim st i, (st.converged i || st.failed i) = true →
    (s2 v0 fLim st).right i = st.right i

/-- Modelled from the spec: contract of `hzl.update` used by the
orchestration layer (spec section 4.4: the single-point update is
"restricted to the `active` mask"): elements outside the mask keep their
endpoints and report no failure. -/
structure UpdateContract (n : ℕ)
    (upd : (Fin n → Fl) → (Fin n → ValGrad) → (Fin n → ValGrad) → (Fin n → ValGrad) →
      (Fin n → Bool) → UpdateResult n) : Prop where
  inactive_left : ∀ fLim l r vm a i, a i = false → (upd fLim l r vm a).left i = l i
  inactive_right : ∀ fLim l r vm a i, a i = false → (upd fLim l r vm a).right i = r i
  inactive_failed : ∀ fLim l r vm a i, a i = false → (upd fLim l r vm a).failed i = false

/-- The batched interval midpoint of `_line_search_inner_bisection`, the
source line `midpoint = (search_interval.left.x + search_interval.right.x) / 2`,
computed for every batch element. -/
def midpoint_of {n : ℕ} (st : SearchState n) : Fin n → Fl :=
  fun i => ((st.left i).x.add (st.right i).x).half

/-- Elements of `_line_search_inner_bisection` still active after the
midpoint evaluation: `still_active = active & is_valid_mid`. -/
def still_active_mask {n : ℕ} (φ : Oracle n) (st : SearchState n) (active : Fin n → Bool) :
    Fin n → Bool :=
  fun i => active i && is_finite_vg (eval_oracle φ (midpoint_of st) i)

/-- The interval state after the midpoint evaluation of
`_line_search_inner_bisection`: newly failed elements
(`new_failed = active & ~is_valid_mid`) are merged into `failed` and the
evaluation counter is incremented by one for the batched midpoint call. -/
def next_interval_of {n : ℕ} (φ : Oracle n) (st : SearchState n) (active : Fin n → Bool) :
    SearchState n :=
  { st with
    failed := fun i =>
      st.failed i || (active i && !(is_finite_vg (eval_oracle φ (midpoint_of st) i)))
    func_evals := st.func_evals + 1 }

/-- The `hzl.update` call of `_apply_update`, applied to the post-midpoint
interval and restricted to the still-active elements. -/
def update_result_of {n : ℕ} (φ : Oracle n) (B : Boxes n) (fLim : Fin n → Fl)
    (st : SearchState n) (active : Fin n → Bool) : UpdateResult n :=
  B.update fLim (next_interval_of φ st active).left (next_interval_of φ st active).right
    (eval_oracle φ (midpoint_of st)) (still_active_mask φ st active)

/-- Source `_apply_update` of `_line_search_inner_bisection`: merge the
update result into the interval state. -/
def apply_update {n : ℕ} (φ : Oracle n) (B : Boxes n) (fLim : Fin n → Fl)
    (st : SearchState n) (active : Fin n → Bool) : SearchState n where
  converged := (next_interval_of φ st active).converged
  failed := fun i =>
    (next_interval_of φ st active).failed i || (update_result_of φ B fLim st active).failed i
  iterations := (next_interval_of φ st active).iterations +
    (update_result_of φ B fLim st active).iteration
  func_evals := (next_interval_of φ st active).func_evals +
    (update_result_of φ B fLim st active).num_evals
  left := (update_result_of φ B fLim st active).left
  right := (update_result_of φ B fLim st active).right

/-- Source `_line_search_inner_bisection`: evaluate the batched midpoint,
fail the active elements whose midpoint evaluation is non-finite, and apply
the single-point update when any element is still active
(`prefer_static.cond(tf.reduce_any(still_active), _apply_update, ...)`). -/
def line_search_inner_bisection {n : ℕ} (φ : Oracle n) (B : Boxes n) (fLim : Fin n → Fl)
    (st : SearchState n) (active : Fin n → Bool) : SearchState n :=
  if anyB (still_active_mask φ st active) then apply_update φ B fLim st active
  else next_interval_of φ st active

/-- The interval width of a state, `right.x - left.x`. -/
def width_of {n : ℕ} (st : SearchState n) (i : Fin n) : Fl :=
  ((st.right i).x).sub ((st.left i).x)

/-- The per-element shrinkage test of `_do_check_shrinkage`, the source
line `sufficient_shrinkage = new_width < old_width * shrinkage_param`. -/
def sufficient_shrinkage_mask {n : ℕ} (γ : ℚ) (curr s2res : SearchState n) : Fin n → Bool :=
  fun i => Fl.lt (width_of s2res i) ((width_of curr i).mulParam γ)

/-- The per-element flatness test of `_do_check_shrinkage`: the function
values are very close across the old interval and across the new one. -/
def func_is_flat_mask {n : ℕ} (curr s2res : SearchState n) : Fin n → Bool :=
  fun i => very_close (curr.left i).f (curr.right i).f &&
    very_close (s2res.left i).f (s2res.right i).f

/-- The elements `_do_check_shrinkage` newly declares converged, the source
line `new_converged = should_check_shrinkage & sufficient_shrinkage & func_is_flat`. -/
def new_converged_mask {n : ℕ} (γ : ℚ) (curr s2res : SearchState n)
    (shouldCheck : Fin n → Bool) : Fin n → Bool :=
  fun i => shouldCheck i && sufficient_shrinkage_mask γ curr s2res i &&
    func_is_flat_mask curr s2res i

/-- The elements sent to the bisection fallback, the source line
`needs_inner_bisect = should_check_shrinkage & ~sufficient_shrinkage`. -/
def needs_inner_bisect_mask {n : ℕ} (γ : ℚ) (curr s2res : SearchState n)
    (shouldCheck : Fin n → Bool) : Fin n → Bool :=
  fun i => shouldCheck i && !(sufficient_shrinkage_mask γ curr s2res i)

/-- The state handed to the bisection fallback, the source
`inner_bisect_args = secant2_result._replace(converged=... | new_converged)`. -/
def inner_bisect_args_of {n : ℕ} (γ : ℚ) (curr s2res : SearchState n)
    (shouldCheck : Fin n → Bool) : SearchState n :=
  { s2res with
    converged := fun i => s2res.converged i || new_converged_mask γ curr s2res shouldCheck i }

/-- Source `_do_check_shrinkage`: declare flat sufficiently-shrunk elements
converged and run the bisection fallback when any element under-shrank
(`prefer_static.cond(tf.reduce_any(needs_inner_bisect), _apply_inner_bisect, ...)`). -/
def do_check_shrinkage {n : ℕ} (φ : Oracle n) (B : Boxes n) (fLim : Fin n → Fl) (γ : ℚ)
    (curr s2res : SearchState n) (shouldCheck : Fin n → Bool) : SearchState n :=
  if anyB (needs_inner_bisect_mask γ curr s2res shouldCheck) then
    line_search_inner_bisection φ B fLim (inner_bisect_args_of γ curr s2res shouldCheck)
      (needs_inner_bisect_mask γ curr s2res shouldCheck)
  else inner_bisect_args_of γ curr s2res shouldCheck

/-- The `secant2_result` state built at the top of `_loop_body`: the
secant2 signals and bracket, the iteration counter bumped by one, the
evaluation counter taken from secant2's cumulative count. -/
def secant2_step {n : ℕ} (B : Boxes n) (v0 : Fin n → ValGrad) (fLim : Fin n → Fl)
    (st : SearchState n) : SearchState n where
  converged := (B.secant2 v0 fLim st).converged
  failed := (B.secant2 v0 fLim st).failed
  iterations := st.iterations + 1
  func_evals := (B.secant2 v0 fLim st).num_evals
  left := (B.secant2 v0 fLim st).left
  right := (B.secant2 v0 fLim st).right

/-- The source line
`should_check_shrinkage = ~(secant2_result.converged | secant2_result.failed)`. -/
def should_check_mask {n : ℕ} (B : Boxes n) (v0 : Fin n → ValGrad) (fLim : Fin n → Fl)
    (st : SearchState n) : Fin n → Bool :=
  fun i => !((secant2_step B v0 fLim st).converged i || (secant2_step B v0 fLim st).failed i)

/-- The `next_args` of `_loop_body`: run the shrinkage check when any
element needs it. -/
def next_args_of {n : ℕ} (φ : Oracle n) (B : Boxes n) (v0 : Fin n → ValGrad)
    (fLim : Fin n → Fl) (γ : ℚ) (st : SearchState n) : SearchState n :=
  if anyB (should_check_mask B v0 fLim st) then
    do_check_shrinkage φ B fLim γ st (secant2_step B v0 fLim st) (should_check_mask B v0 fLim st)
  else secant2_step B v0 fLim st

/-- The source line
`interval_shrunk = ~next_args.failed & _very_close(next_args.left.x, next_args.right.x)`. -/
def interval_shrunk_mask {n : ℕ} (st : SearchState n) : Fin n → Bool :=
  fun i => !(st.failed i) && very_close ((st.left i).x) ((st.right i).x)

/-- Source `_loop_body` of `_line_search_after_bracketing`. -/
def loop_body {n : ℕ} (φ : Oracle n) (B : Boxes n) (v0 : Fin n → ValGrad)
    (fLim : Fin n → Fl) (γ : ℚ) (st : SearchState n) : SearchState n :=
  { next_args_of φ B v0 fLim γ st with
    converged := fun i => (next_args_of φ B v0 fLim γ st).converged i ||
      interval_shrunk_mask (next_args_of φ B v0 fLim γ st) i }

/-- Source `_loop_cond` of `_line_search_after_bracketing`:
`(iterations < max_iterations) & tf.reduce_any(active)`. -/
def loop_cond {n : ℕ} (maxIter : ℕ) (st : SearchState n) : Bool :=
  decide (st.iterations < maxIter) && anyB (fun i => !(st.converged i || st.failed i))

/-- The `tf.while_loop` of `_line_search_after_bracketing`, as structural
recursion on an explicit fuel.  Called with `fuel = max_iterations -
iterations` the fuel runs out only in states whose iteration counter has
reached `max_iterations`, where the loop condition is false anyway (each
trip increases the counter by at least one, `loop_body_iterations_ge`
below), so this computes the exact while-loop fixpoint. -/
def search_loop {n : ℕ} (φ : Oracle n) (B : Boxes n) (v0 : Fin n → ValGrad)
    (fLim : Fin n → Fl) (γ : ℚ) (maxIter : ℕ) : ℕ → SearchState n → SearchState n
  | 0, st => st
  | fuel + 1, st =>
    if loop_cond maxIter st then
      search_loop φ B v0 fLim γ maxIter fuel (loop_body φ B v0 fLim γ st)
    else st

/-- Source `_line_search_after_bracketing`: the main search loop run from
the bracketed interval. -/
def line_search_after_bracketing {n : ℕ} (φ : Oracle n) (B : Boxes n) (v0 : Fin n → ValGrad)
    (fLim : Fin n → Fl) (γ : ℚ) (maxIter : ℕ) (st : SearchState n) : SearchState n :=
  search_loop φ B v0 fLim γ maxIter (maxIter - st.iterations) st

/-- The convergence mask computed right after bracketing, the source line
`converged = init_interval.converged | _very_close(bracket_result.left.x, bracket_result.right.x)`. -/
def bracket_converged_mask {n : ℕ} (B : Boxes n) (fLim : Fin n → Fl) (st : SearchState n) :
    Fin n → Bool :=
  fun i => st.converged i ||
    very_close (((B.bracket fLim st).left i).x) (((B.bracket fLim st).right i).x)

/-- The `line_search_args` state of `_bracket_and_search`: bracket results
plus the failure of elements that exhausted the trip budget during
bracketing without converging
(`exhausted_iterations = ~converged & (bracket_result.iteration >= max_iterations)`). -/
def bracket_args {n : ℕ} (B : Boxes n) (fLim : Fin n → Fl) (st : SearchState n) (maxIter : ℕ) :
    SearchState n where
  converged := bracket_converged_mask B fLim st
  failed := fun i => (B.bracket fLim st).failed i ||
    (!(bracket_converged_mask B fLim st i) && decide (maxIter ≤ (B.bracket fLim st).iteration))
  iterations := (B.bracket fLim st).iteration
  func_evals := (B.bracket fLim st).num_evals
  left := (B.bracket fLim st).left
  right := (B.bracket fLim st).right

/-- Source `_bracket_and_search`. -/
def bracket_and_search {n : ℕ} (φ : Oracle n) (B : Boxes n) (v0 : Fin n → ValGrad)
    (fLim : Fin n → Fl) (st : SearchState n) (maxIter : ℕ) (γ : ℚ) : SearchState n :=
  line_search_after_bracketing φ B v0 fLim γ maxIter (bracket_args B fLim st maxIter)

/-- The initial-step evaluation of `_prepare_args`: the supplied
`value_at_initial_step` if any, otherwise one oracle evaluation at the
initial step vector. -/
def prep_val_initial {n : ℕ} (φ : Oracle n) (initialStep : Fin n → Fl) :
    Option (Fin n → ValGrad) → Fin n → ValGrad
  | some v => v
  | none => eval_oracle φ initialStep

/-- The zero-point evaluation of `_prepare_args`: the supplied
`value_at_zero` if any, otherwise one oracle evaluation at the zero vector
(`x_0 = tf.zeros_like(val_initial.x)`). -/
def prep_val_0 {n : ℕ} (φ : Oracle n) : Option (Fin n → ValGrad) → Fin n → ValGrad
  | some v => v
  | none => eval_oracle φ (fun _ => Fl.fin 0)

/-- The oracle calls made by `_prepare_args`: one per argument it had to
evaluate itself. -/
def prep_evals {n : ℕ} (valInit? val0? : Option (Fin n → ValGrad)) : ℕ :=
  (if valInit?.isNone then 1 else 0) + (if val0?.isNone then 1 else 0)

/-- The approximate-Wolfe threshold of `_prepare_args`, the source line
`f_lim = val_0.f + (approximate_wolfe_threshold * tf.abs(val_0.f))`. -/
def f_lim_of {n : ℕ} (eps : ℚ) (val0 : Fin n → ValGrad) : Fin n → Fl :=
  fun i => (val0 i).f.add (((val0 i).f.abs).mulParam eps)

/-- The per-element validity predicate of `hager_zhang`, the source line
`valid_inputs = hzl.is_finite(val_0) & (val_0.df < 0) & is_finite(val_initial.x) & (val_initial.x > 0)`. -/
def valid_inputs {n : ℕ} (val0 valInit : Fin n → ValGrad) : Fin n → Bool :=
  fun i => is_finite_vg (val0 i) && Fl.lt (val0 i).df (Fl.fin 0) &&
    (valInit i).x.isFinite && Fl.lt (Fl.fin 0) ((valInit i).x)

/-- The externally supplied convergence mask, all false when absent. -/
def init_conv_of {n : ℕ} : Option (Fin n → Bool) → Fin n → Bool
  | some c => c
  | none => fun _ => false

/-- The initial failure mask of `hager_zhang`, the source line
`failed = ~init_converged & ~valid_inputs`. -/
def init_failed_mask {n : ℕ} (initConv valid : Fin n → Bool) : Fin n → Bool :=
  fun i => !(initConv i) && !(valid i)

/-- The initially active elements of `hager_zhang`, the source line
`active = ~init_converged & valid_inputs`. -/
def active_mask {n : ℕ} (initConv valid : Fin n → Bool) : Fin n → Bool :=
  fun i => !(initConv i) && valid i

/-- The repair-loop result inside `hager_zhang`, with the masks the source
computes. -/
def hz_fix {n : ℕ} (φ : Oracle n) (machEps : ℚ) (initialStep : Fin n → Fl)
    (valInit? val0? : Option (Fin n → ValGrad)) (initConv? : Option (Fin n → Bool))
    (stepShrink : ℚ) : FixResult n :=
  fix_step_size φ (prep_val_initial φ initialStep valInit?)
    (active_mask (init_conv_of initConv?)
      (valid_inputs (prep_val_0 φ val0?) (prep_val_initial φ initialStep valInit?)))
    stepShrink (iter_max_for machEps)

/-- The `init_interval` state of `hager_zhang`: pre-converged elements keep
`right = val_0` (the source line
`right=hzl.val_where(init_converged, val_0, val_c)`), repair failures merge
into `failed`, and the evaluation counter sums the preparation and repair
calls. -/
def hz_init_interval {n : ℕ} (φ : Oracle n) (machEps : ℚ) (initialStep : Fin n → Fl)
    (valInit? val0? : Option (Fin n → ValGrad)) (initConv? : Option (Fin n → Bool))
    (stepShrink : ℚ) : SearchState n where
  converged := init_conv_of initConv?
  failed := fun i =>
    init_failed_mask (init_conv_of initConv?)
      (valid_inputs (prep_val_0 φ val0?) (prep_val_initial φ initialStep valInit?)) i ||
    (hz_fix φ machEps initialStep valInit? val0? initConv? stepShrink).toFix i
  func_evals := prep_evals valInit? val0? +
    (hz_fix φ machEps initialStep valInit? val0? initConv? stepShrink).evals
  iterations := 0
  left := prep_val_0 φ val0?
  right := val_where (init_conv_of initConv?) (prep_val_0 φ val0?)
    (hz_fix φ machEps initialStep valInit? val0? initConv? stepShrink).valC

/-- Source `hager_zhang`, the entry point: prepare and validate the inputs,
repair the step size, and bracket-and-search when any element is active
(`prefer_static.cond(tf.reduce_any(init_active), _apply_bracket_and_search, ...)`).
`machEps` is the machine epsilon of the working dtype (modelled exactly as
a rational), `eps` the approximate-Wolfe threshold, `γ` the shrinkage
parameter, `stepShrink` the repair factor. -/
def hager_zhang {n : ℕ} (φ : Oracle n) (B : Boxes n) (machEps : ℚ) (initialStep : Fin n → Fl)
    (valInit? val0? : Option (Fin n → ValGrad)) (initConv? : Option (Fin n → Bool))
    (eps γ stepShrink : ℚ) (maxIter : ℕ) : SearchState n :=
  if anyB (fun i =>
      !((hz_init_interval φ machEps initialStep valInit? val0? initConv? stepShrink).failed i) &&
      !((hz_init_interval φ machEps initialStep valInit? val0? initConv? stepShrink).converged i))
  then
    bracket_and_search φ B (prep_val_0 φ val0?) (f_lim_of eps (prep_val_0 φ val0?))
      (hz_init_interval φ machEps initialStep valInit? val0? initConv? stepShrink) maxIter γ
  else hz_init_interval φ machEps initialStep valInit? val0? initConv? stepShrink

/-- The comparator as the spec and claim C9 describe it: step one
representable value from the smaller of the two arguments toward the
larger, and test whether that reaches or exceeds the larger.  This
definition follows the claim's words and is compared against the source
comparator `very_close`. -/
def very_close_spec (x y : Fl) : Bool :=
  if Fl.le x y then Fl.le y (Fl.nextafter x y) else Fl.le x (Fl.nextafter y x)

/-- An oracle that returns its step with value `0` and derivative `0`
everywhere: every evaluation is finite. -/
def flat_oracle (n : ℕ) : Oracle n := fun _ x => ⟨x, Fl.fin 0, Fl.fin 0⟩

/-- Modelled from the spec: a conforming instance of the three black-box
primitives.  `bracket` returns its input interval with zero extra trips and
evaluations, the behaviour of `hzl.bracket` on an interval that already
satisfies the opposite-slope condition (spec 4.3: expansion runs "until the
sign/threshold condition holds", so it ends at once when it already holds,
e.g. when `right.df >= 0`).  `secant2` returns the interval, flags and
counter unchanged, a stalled secant step whose candidate does not improve
the bracket and makes no oracle call.  `update` keeps both endpoints with
no extra trips, evaluations or failures, the masked single-point update
when the candidate replaces neither endpoint.  All three preserve frozen
and inactive elements, as the contracts require. -/
def id_boxes (n : ℕ) : Boxes n where
  bracket := fun _ st => ⟨st.iterations, st.failed, st.func_evals, st.left, st.right⟩
  secant2 := fun _ _ st => ⟨st.converged, st.failed, st.func_evals, st.left, st.right⟩
  update := fun _ l r _ _ => ⟨0, fun _ => false, 0, l, r⟩

/-- Modelled from the spec: like `id_boxes` but `secant2` makes one oracle
call (its secant candidate evaluation, spec 4.4) whose Wolfe test fails and
whose interval update changes nothing: a stalling secant2 step. -/
def stall_boxes (n : ℕ) : Boxes n where
  bracket := fun _ st => ⟨st.iterations, st.failed, st.func_evals, st.left, st.right⟩
  secant2 := fun _ _ st => ⟨st.converged, st.failed, st.func_evals + 1, st.left, st.right⟩
  update := fun _ l r _ _ => ⟨0, fun _ => false, 0, l, r⟩

/-- Modelled from the spec: like `stall_boxes` but the single-point update
reports one inner iteration trip, as the update contract of spec 4.4
permits (it returns "an iteration-trip count"). -/
def bump_boxes (n : ℕ) : Boxes n where
  bracket := fun _ st => ⟨st.iterations, st.failed, st.func_evals, st.left, st.right⟩
  secant2 := fun _ _ st => ⟨st.converged, st.failed, st.func_evals + 1, st.left, st.right⟩
  update := fun _ l r _ _ => ⟨1, fun _ => false, 0, l, r⟩

/-- Zero-point evaluation used by the concrete runs: `f(0) = 0`,
`df(0) = -1`, a valid descent direction. -/
def v0_run : Fin 1 → ValGrad := fun _ => ⟨Fl.fin 0, Fl.fin 0, Fl.fin (-1)⟩

/-- C2 initial-step evaluation: a finite positive step whose derivative is
already nonnegative, so bracketing ends immediately. -/
def vc_c2 : Fin 1 → ValGrad := fun _ => ⟨Fl.fin 4, Fl.fin 7, Fl.fin 1⟩

/-- C2 run: valid single-element input, a trip budget of one, and a
stalling (but conforming) secant2; the single loop trip consumes the budget
without convergence or failure. -/
def run_c2 : SearchState 1 :=
  hager_zhang (flat_oracle 1) (stall_boxes 1) (mkRat 1 (2 ^ 52)) (fun _ => Fl.fin 4)
    (some vc_c2) (some v0_run) none (mkRat 1 1000000) (mkRat 33 50) (mkRat 1 10) 1

/-- C3 initial-step evaluation, distinct from the zero-point one. -/
def vc_c3 : Fin 1 → ValGrad := fun _ => ⟨Fl.fin 9, Fl.fin 5, Fl.fin 5⟩

/-- C3 run: the single element is externally marked converged. -/
def run_c3 : SearchState 1 :=
  hager_zhang (flat_oracle 1) (id_boxes 1) (mkRat 1 (2 ^ 52)) (fun _ => Fl.fin 9)
    (some vc_c3) (some v0_run) (some (fun _ => true)) (mkRat 1 1000000) (mkRat 33 50)
    (mkRat 1 10) 50

/-- C4 initial-step evaluation: one representable step above `0`, with a
nonnegative derivative, so the bracket is the adjacent pair `(0, 1)` and
bracketing ends immediately. -/
def vc_c4 : Fin 1 → ValGrad := fun _ => ⟨Fl.fin 1, Fl.fin 0, Fl.fin 1⟩

/-- C4 run: valid input whose bracket endpoints are adjacent representable
values; the `_very_close` test right after bracketing marks the element
converged without making the endpoints equal. -/
def run_c4 : SearchState 1 :=
  hager_zhang (flat_oracle 1) (id_boxes 1) (mkRat 1 (2 ^ 52)) (fun _ => Fl.fin 1)
    (some vc_c4) (some v0_run) none (mkRat 1 1000000) (mkRat 33 50) (mkRat 1 10) 50

/-- C1 counterexample state before the secant2 step: bracket `[0, 4]` with
equal function values at the ends (flat). -/
def curr_c1 : SearchState 1 where
  converged := fun _ => false
  failed := fun _ => false
  func_evals := 5
  iterations := 3
  left := fun _ => ⟨Fl.fin 0, Fl.fin 5, Fl.fin (-1)⟩
  right := fun _ => ⟨Fl.fin 4, Fl.fin 5, Fl.fin 1⟩

/-- C1 counterexample state after the secant2 step: the same flat bracket
`[0, 4]` (the secant2 step did not shrink it), one more evaluation and
trip counted. -/
def s2res_c1 : SearchState 1 where
  converged := fun _ => false
  failed := fun _ => false
  func_evals := 6
  iterations := 4
  left := fun _ => ⟨Fl.fin 0, Fl.fin 5, Fl.fin (-1)⟩
  right := fun _ => ⟨Fl.fin 4, Fl.fin 5, Fl.fin 1⟩

/-- C1 counterexample run of the shrinkage check on that element. -/
def run_c1 : SearchState 1 :=
  do_check_shrinkage (flat_oracle 1) (id_boxes 1) (fun _ => Fl.fin 100) (mkRat 33 50)
    curr_c1 s2res_c1 (fun _ => true)

/-- A frozen converged single-element state, used to witness the latch. -/
def st_c5 : SearchState 1 where
  converged := fun _ => true
  failed := fun _ => false
  func_evals := 5
  iterations := 3
  left := fun _ => ⟨Fl.fin 0, Fl.fin 5, Fl.fin (-1)⟩
  right := fun _ => ⟨Fl.fin 0, Fl.fin 5, Fl.fin (-1)⟩

/-- C6 counterexample run: one loop trip on the C1 state with an update box
that reports one inner iteration trip. -/
def run_c6 : SearchState 1 :=
  loop_body (flat_oracle 1) (bump_boxes 1) v0_run (fun _ => Fl.fin 100) (mkRat 33 50) curr_c1

/-- C8 batch of two: element `0` has a finite positive step whose
evaluation overflowed (`f = inf`), so it needs repair; element `1` has a
non-finite step `x = inf`, an invalid input. -/
def vc_c8 : Fin 2 → ValGrad := ![⟨Fl.fin 1, Fl.inf, Fl.fin 0⟩, ⟨Fl.inf, Fl.fin 0, Fl.fin 0⟩]

/-- C8 zero-point evaluations: valid descent directions for both. -/
def v0_c8 : Fin 2 → ValGrad :=
  ![⟨Fl.fin 0, Fl.fin 0, Fl.fin (-1)⟩, ⟨Fl.fin 0, Fl.fin 0, Fl.fin (-1)⟩]

/-- C8 active mask as `hager_zhang` computes it: element `0` active,
element `1` invalid hence inactive. -/
def act_c8 : Fin 2 → Bool := active_mask (init_conv_of none) (valid_inputs v0_c8 vc_c8)

/-- C8 repair-loop run (float16 epsilon, ceiling 10): one trip fixes
element `0`. -/
def fix_c8 : FixResult 2 :=
  fix_step_size (flat_oracle 2) vc_c8 act_c8 (mkRat 1 10) (iter_max_for (mkRat 1 (2 ^ 10)))

/-- C9 counterexample: the source comparator `_very_close(x, y)`, literally
`nextafter(x, y) >= y`, is true at `x` two representable steps above `y`
(stepping down from `x` toward `y` lands at a value that is still at least
`y`), where the claim's smaller-toward-larger description is false; and
swapping the two arguments changes the answer, so the result does depend on
which argument is the smaller. -/
theorem C9_counterexample :
    very_close (Fl.fin 2) (Fl.fin 0) = true ∧
    very_close_spec (Fl.fin 2) (Fl.fin 0) = false ∧
    very_close (Fl.fin 0) (Fl.fin 2) = false := by decide

/-- C9 amended: on finite values `very_close x y` is true exactly when `y`
is at most one representable step above `x` (so it is always true for
`x ≥ y`, and is not symmetric); it agrees with the claim's
smaller-toward-larger description precisely on the arguments with
`x ≤ y`. -/
theorem C9_amended (a b : ℤ) :
    (very_close (Fl.fin a) (Fl.fin b) = decide (b ≤ a + 1)) ∧
    (a ≤ b → very_close (Fl.fin a) (Fl.fin b) = very_close_spec (Fl.fin a) (Fl.fin b)) := by
  constructor
  · simp only [very_close, Fl.nextafter]
    rcases lt_trichotomy a b with h | h | h
    · simp [h, not_lt.mpr h.le, Fl.le]
    · subst h
      simp [Fl.le, lt_irrefl]
    · simp only [if_neg (not_lt.mpr h.le), if_pos h, Fl.le]
      have h1 : b ≤ a - 1 := by omega
      have h2 : b ≤ a + 1 := by omega
      simp [h1, h2]
  · intro h
    have hle : Fl.le (Fl.fin a) (Fl.fin b) = true := by
      simp [Fl.le, h]
    simp [very_close_spec, hle, very_close]

/-- C9 witness: the amended theorem applied at the concrete pair `0, 2`. -/
theorem C9_witness :
    very_close (Fl.fin 0) (Fl.fin 2) = very_close_spec (Fl.fin 0) (Fl.fin 2) :=
  (C9_amended 0 2).2 (by decide)

theorem mulParam_isFinite (x : Fl) (q : ℚ) (h : x.isFinite = true) :
    (x.mulParam q).isFinite = true := by
  cases x <;> simp_all [Fl.mulParam, Fl.isFinite]

theorem loop_body_iterations_ge {n : ℕ} (φ : Oracle n) (B : Boxes n) (v0 : Fin n → ValGrad)
    (fLim : Fin n → Fl) (γ : ℚ) (st : SearchState n) :
    st.iterations + 1 ≤ (loop_body φ B v0 fLim γ st).iterations := by
  unfold loop_body next_args_of do_check_shrinkage line_search_inner_bisection apply_update
    next_interval_of inner_bisect_args_of secant2_step
  split_ifs <;> simp

theorem line_search_inner_bisection_frozen {n : ℕ} (φ : Oracle n) (B : Boxes n)
    (hU : UpdateContract n B.update) (fLim : Fin n → Fl) (st : SearchState n)
    (active : Fin n → Bool) (i : Fin n) (h : active i = false) :
    (line_search_inner_bisection φ B fLim st active).converged i = st.converged i ∧
    (line_search_inner_bisection φ B fLim st active).failed i = st.failed i ∧
    (line_search_inner_bisection φ B fLim st active).left i = st.left i ∧
    (line_search_inner_bisection φ B fLim st active).right i = st.right i := by
  have hsa : still_active_mask φ st active i = false := by
    simp [still_active_mask, h]
  unfold line_search_inner_bisection
  split
  · refine ⟨rfl, ?_, ?_, ?_⟩
    · show ((next_interval_of φ st active).failed i ||
        (update_result_of φ B fLim st active).failed i) = st.failed i
      unfold update_result_of
      rw [hU.inactive_failed _ _ _ _ _ _ hsa]
      simp [next_interval_of, h]
    · show (update_result_of φ B fLim st active).left i = st.left i
      unfold update_result_of
      rw [hU.inactive_left _ _ _ _ _ _ hsa]
      rfl
    · show (update_result_of φ B fLim st active).right i = st.right i
      unfold update_result_of
      rw [hU.inactive_right _ _ _ _ _ _ hsa]
      rfl
  · refine ⟨rfl, ?_, rfl, rfl⟩
    simp [next_interval_of, h]

theorem do_check_shrinkage_frozen {n : ℕ} (φ : Oracle n) (B : Boxes n)
    (hU : UpdateContract n B.update) (fLim : Fin n → Fl) (γ : ℚ)
    (curr s2res : SearchState n) (shouldCheck : Fin n → Bool) (i : Fin n)
    (h : shouldCheck i = false) :
    (do_check_shrinkage φ B fLim γ curr s2res shouldCheck).converged i = s2res.converged i ∧
    (do_check_shrinkage φ B fLim γ curr s2res shouldCheck).failed i = s2res.failed i ∧
    (do_check_shrinkage φ B fLim γ curr s2res shouldCheck).left i = s2res.left i ∧
    (do_check_shrinkage φ B fLim γ curr s2res shouldCheck).right i = s2res.right i := by
  have hnb : needs_inner_bisect_mask γ curr s2res shouldCheck i = false := by
    simp [needs_inner_bisect_mask, h]
  have hic : (inner_bisect_args_of γ curr s2res shouldCheck).converged i = s2res.converged i := by
    simp [inner_bisect_args_of, new_converged_mask, h]
  unfold do_check_shrinkage
  split
  · obtain ⟨h1, h2, h3, h4⟩ := line_search_inner_bisection_frozen φ B hU fLim
      (inner_bisect_args_of γ curr s2res shouldCheck)
      (needs_inner_bisect_mask γ curr s2res shouldCheck) i hnb
    exact ⟨h1.trans hic, h2, h3, h4⟩
  · exact ⟨hic, rfl, rfl, rfl⟩

theorem secant2_step_frozen {n : ℕ} (B : Boxes n) (hS : Secant2Contract n B.secant2)
    (v0 : Fin n → ValGrad) (fLim : Fin n → Fl) (st : SearchState n) (i : Fin n)
    (h : (st.converged i || st.failed i) = true) :
    (secant2_step B v0 fLim st).converged i = st.converged i ∧
    (secant2_step B v0 fLim st).failed i = st.failed i ∧
    (secant2_step B v0 fLim st).left i = st.left i ∧
    (secant2_step B v0 fLim st).right i = st.right i :=
  ⟨hS.frozen_converged v0 fLim st i h, hS.frozen_failed v0 fLim st i h,
   hS.frozen_left v0 fLim st i h, hS.frozen_right v0 fLim st i h⟩

theorem should_check_frozen {n : ℕ} (B : Boxes n) (hS : Secant2Contract n B.secant2)
    (v0 : Fin n → ValGrad) (fLim : Fin n → Fl) (st : SearchState n) (i : Fin n)
    (h : (st.converged i || st.failed i) = true) :
    should_check_mask B v0 fLim st i = false := by
  unfold should_check_mask
  rw [(secant2_step_frozen B hS v0 fLim st i h).1, (secant2_step_frozen B hS v0 fLim st i h).2.1,
    h]
  rfl

theorem loop_body_frozen {n : ℕ} (φ : Oracle n) (B : Boxes n)
    (hS : Secant2Contract n B.secant2) (hU : UpdateContract n B.update)
    (v0 : Fin n → ValGrad) (fLim : Fin n → Fl) (γ : ℚ) (st : SearchState n) (i : Fin n)
    (h : (st.converged i || st.failed i) = true) :
    (loop_body φ B v0 fLim γ st).converged i = st.converged i ∧
    (loop_body φ B v0 fLim γ st).failed i = st.failed i ∧
    (loop_body φ B v0 fLim γ st).left i = st.left i ∧
    (loop_body φ B v0 fLim γ st).right i = st.right i := by
  have hna : (next_args_of φ B v0 fLim γ st).converged i = st.converged i ∧
      (next_args_of φ B v0 fLim γ st).failed i = st.failed i ∧
      (next_args_of φ B v0 fLim γ st).left i = st.left i ∧
      (next_args_of φ B v0 fLim γ st).right i = st.right i := by
    unfold next_args_of
    split
    · obtain ⟨h1, h2, h3, h4⟩ := do_check_shrinkage_frozen φ B hU fLim γ st
        (secant2_step B v0 fLim st) (should_check_mask B v0 fLim st) i
        (should_check_frozen B hS v0 fLim st i h)
      obtain ⟨g1, g2, g3, g4⟩ := secant2_step_frozen B hS v0 fLim st i h
      exact ⟨h1.trans g1, h2.trans g2, h3.trans g3, h4.trans g4⟩
    · exact secant2_step_frozen B hS v0 fLim st i h
  obtain ⟨h1, h2, h3, h4⟩ := hna
  refine ⟨?_, h2, h3, h4⟩
  show ((next_args_of φ B v0 fLim γ st).converged i ||
    interval_shrunk_mask (next_args_of φ B v0 fLim γ st) i) = st.converged i
  cases hc : st.converged i
  · have hf : st.failed i = true := by
      rw [hc] at h
      simpa using h
    rw [h1, hc]
    unfold interval_shrunk_mask
    rw [h2, hf]
    rfl
  · rw [h1, hc]
    rfl

theorem search_loop_frozen {n : ℕ} (φ : Oracle n) (B : Boxes n)
    (hS : Secant2Contract n B.secant2) (hU : UpdateContract n B.update)
    (v0 : Fin n → ValGrad) (fLim : Fin n → Fl) (γ : ℚ) (maxIter : ℕ) (i : Fin n) :
    ∀ (fuel : ℕ) (st : SearchState n), (st.converged i || st.failed i) = true →
    (search_loop φ B v0 fLim γ maxIter fuel st).converged i = st.converged i ∧
    (search_loop φ B v0 fLim γ maxIter fuel st).failed i = st.failed i ∧
    (search_loop φ B v0 fLim γ maxIter fuel st).left i = st.left i ∧
    (search_loop φ B v0 fLim γ maxIter fuel st).right i = st.right i := by
  intro fuel
  induction fuel with
  | zero => exact fun st _ => ⟨rfl, rfl, rfl, rfl⟩
  | succ fuel ih =>
    intro st hst
    unfold search_loop
    split
    · obtain ⟨b1, b2, b3, b4⟩ := loop_body_frozen φ B hS hU v0 fLim γ st i hst
      have hfr : ((loop_body φ B v0 fLim γ st).converged i ||
          (loop_body φ B v0 fLim γ st).failed i) = true := by
        rw [b1, b2]
        exact hst
      obtain ⟨c1, c2, c3, c4⟩ := ih (loop_body φ B v0 fLim γ st) hfr
      exact ⟨c1.trans b1, c2.trans b2, c3.trans b3, c4.trans b4⟩
    · exact ⟨rfl, rfl, rfl, rfl⟩

theorem loop_cond_iterations {n : ℕ} (maxIter : ℕ) (st : SearchState n)
    (h : loop_cond maxIter st = true) : st.iterations < maxIter := by
  unfold loop_cond at h
  have := (Bool.and_eq_true _ _).mp h
  exact of_decide_eq_true this.1

theorem search_loop_exit {n : ℕ} (φ : Oracle n) (B : Boxes n) (v0 : Fin n → ValGrad)
    (fLim : Fin n → Fl) (γ : ℚ) (maxIter : ℕ) :
    ∀ (fuel : ℕ) (st : SearchState n), maxIter - st.iterations ≤ fuel →
    loop_cond maxIter (search_loop φ B v0 fLim γ maxIter fuel st) = false := by
  intro fuel
  induction fuel with
  | zero =>
    intro st hf
    show loop_cond maxIter st = false
    unfold loop_cond
    rw [decide_eq_false (by omega)]
    rfl
  | succ fuel ih =>
    intro st hf
    unfold search_loop
    split
    · rename_i hc
      have h1 := loop_cond_iterations maxIter st hc
      have h2 := loop_body_iterations_ge φ B v0 fLim γ st
      exact ih (loop_body φ B v0 fLim γ st) (by omega)
    · rename_i hc
      simpa using hc

theorem bracket_args_conv {n : ℕ} (B : Boxes n) (hB : BracketContract n B.bracket)
    (fLim : Fin n → Fl) (st : SearchState n) (maxIter : ℕ) (i : Fin n)
    (h : st.converged i = true) :
    (bracket_args B fLim st maxIter).converged i = true ∧
    (bracket_args B fLim st maxIter).failed i = st.failed i ∧
    (bracket_args B fLim st maxIter).left i = st.left i ∧
    (bracket_args B fLim st maxIter).right i = st.right i := by
  have hfr : (st.converged i || st.failed i) = true := by
    rw [h]
    rfl
  have hm : bracket_converged_mask B fLim st i = true := by
    unfold bracket_converged_mask
    rw [h]
    rfl
  refine ⟨hm, ?_, hB.frozen_left fLim st i hfr, hB.frozen_right fLim st i hfr⟩
  show ((B.bracket fLim st).failed i ||
    (!(bracket_converged_mask B fLim st i) && decide (maxIter ≤ (B.bracket fLim st).iteration)))
    = st.failed i
  rw [hm, hB.frozen_failed fLim st i hfr]
  simp

theorem bracket_args_failed {n : ℕ} (B : Boxes n) (hB : BracketContract n B.bracket)
    (fLim : Fin n → Fl) (st : SearchState n) (maxIter : ℕ) (i : Fin n)
    (h : st.failed i = true) :
    (bracket_args B fLim st maxIter).failed i = true ∧
    (bracket_args B fLim st maxIter).left i = st.left i ∧
    (bracket_args B fLim st maxIter).right i = st.right i := by
  have hfr : (st.converged i || st.failed i) = true := by
    rw [h]
    simp
  refine ⟨?_, hB.frozen_left fLim st i hfr, hB.frozen_right fLim st i hfr⟩
  show ((B.bracket fLim st).failed i ||
    (!(bracket_converged_mask B fLim st i) && decide (maxIter ≤ (B.bracket fLim st).iteration)))
    = true
  rw [hB.frozen_failed fLim st i hfr, h]
  rfl

theorem bracket_and_search_conv {n : ℕ} (φ : Oracle n) (B : Boxes n)
    (hB : BracketContract n B.bracket) (hS : Secant2Contract n B.secant2)
    (hU : UpdateContract n B.update) (v0 : Fin n → ValGrad) (fLim : Fin n → Fl)
    (st : SearchState n) (maxIter : ℕ) (γ : ℚ) (i : Fin n) (h : st.converged i = true) :
    (bracket_and_search φ B v0 fLim st maxIter γ).converged i = true ∧
    (bracket_and_search φ B v0 fLim st maxIter γ).failed i = st.failed i ∧
    (bracket_and_search φ B v0 fLim st maxIter γ).left i = st.left i ∧
    (bracket_and_search φ B v0 fLim st maxIter γ).right i = st.right i := by
  obtain ⟨a1, a2, a3, a4⟩ := bracket_args_conv B hB fLim st maxIter i h
  have hfr : ((bracket_args B fLim st maxIter).converged i ||
      (bracket_args B fLim st maxIter).failed i) = true := by
    rw [a1]
    rfl
  obtain ⟨c1, c2, c3, c4⟩ := search_loop_frozen φ B hS hU v0 fLim γ maxIter i
    (maxIter - (bracket_args B fLim st maxIter).iterations) (bracket_args B fLim st maxIter) hfr
  exact ⟨c1.trans a1, c2.trans a2, c3.trans a3, c4.trans a4⟩

theorem bracket_and_search_failed {n : ℕ} (φ : Oracle n) (B : Boxes n)
    (hB : BracketContract n B.bracket) (hS : Secant2Contract n B.secant2)
    (hU : UpdateContract n B.update) (v0 : Fin n → ValGrad) (fLim : Fin n → Fl)
    (st : SearchState n) (maxIter : ℕ) (γ : ℚ) (i : Fin n) (h : st.failed i = true) :
    (bracket_and_search φ B v0 fLim st maxIter γ).failed i = true ∧
    (bracket_and_search φ B v0 fLim st maxIter γ).left i = st.left i ∧
    (bracket_and_search φ B v0 fLim st maxIter γ).right i = st.right i := by
  obtain ⟨a1, a2, a3⟩ := bracket_args_failed B hB fLim st maxIter i h
  have hfr : ((bracket_args B fLim st maxIter).converged i ||
      (bracket_args B fLim st maxIter).failed i) = true := by
    rw [a1]
    simp
  obtain ⟨c1, c2, c3, c4⟩ := search_loop_frozen φ B hS hU v0 fLim γ maxIter i
    (maxIter - (bracket_args B fLim st maxIter).iterations) (bracket_args B fLim st maxIter) hfr
  exact ⟨c2.trans a1, c3.trans a2, c4.trans a3⟩

theorem fix_step_loop_evals_le {n : ℕ} (φ : Oracle n) (shrink : ℚ) (iterMax : ℕ) :
    ∀ (fuel i : ℕ) (valC : Fin n → ValGrad) (toFix : Fin n → Bool),
    (fix_step_loop φ shrink iterMax fuel i valC toFix).evals ≤ i + fuel := by
  intro fuel
  induction fuel with
  | zero => intro i valC toFix; simp [fix_step_loop]
  | succ fuel ih =>
    intro i valC toFix
    unfold fix_step_loop
    split
    · exact le_trans (ih (i + 1) _ _) (by omega)
    · simp

theorem fix_step_loop_trace_len {n : ℕ} (φ : Oracle n) (shrink : ℚ) (iterMax : ℕ) :
    ∀ (fuel i : ℕ) (valC : Fin n → ValGrad) (toFix : Fin n → Bool),
    (fix_step_loop φ shrink iterMax fuel i valC toFix).evals =
      i + (fix_step_loop φ shrink iterMax fuel i valC toFix).trace.length := by
  intro fuel
  induction fuel with
  | zero => intro i valC toFix; simp [fix_step_loop]
  | succ fuel ih =>
    intro i valC toFix
    unfold fix_step_loop
    split
    · have := ih (i + 1) (eval_oracle φ (fix_step_next_x shrink valC toFix))
        (fun j => toFix j &&
          !(is_finite_vg (eval_oracle φ (fix_step_next_x shrink valC toFix) j)))
      simp only [List.length_cons]
      omega
    · simp

theorem fix_step_loop_toFix_mono {n : ℕ} (φ : Oracle n) (shrink : ℚ) (iterMax : ℕ) :
    ∀ (fuel i : ℕ) (valC : Fin n → ValGrad) (toFix : Fin n → Bool) (j : Fin n),
    (fix_step_loop φ shrink iterMax fuel i valC toFix).toFix j = true → toFix j = true := by
  intro fuel
  induction fuel with
  | zero => intro i valC toFix j h; exact h
  | succ fuel ih =>
    intro i valC toFix j h
    unfold fix_step_loop at h
    split at h
    · have := ih _ _ _ j h
      exact (Bool.and_eq_true _ _).mp this |>.1
    · exact h

theorem fix_step_loop_toFix_nonfinite {n : ℕ} (φ : Oracle n) (shrink : ℚ) (iterMax : ℕ) :
    ∀ (fuel i : ℕ) (valC : Fin n → ValGrad) (toFix : Fin n → Bool),
    (∀ j, toFix j = true → is_finite_vg (valC j) = false) →
    ∀ j, (fix_step_loop φ shrink iterMax fuel i valC toFix).toFix j = true →
      is_finite_vg ((fix_step_loop φ shrink iterMax fuel i valC toFix).valC j) = false := by
  intro fuel
  induction fuel with
  | zero => intro i valC toFix hInv j h; exact hInv j h
  | succ fuel ih =>
    intro i valC toFix hInv j h
    unfold fix_step_loop at h ⊢
    split at h
    · rename_i hc
      rw [if_pos hc]
      refine ih _ _ _ ?_ j h
      intro k hk
      have := (Bool.and_eq_true _ _).mp hk
      simpa using this.2
    · rename_i hc
      rw [if_neg hc]
      exact hInv j h

theorem fix_step_loop_trace_finite {n : ℕ} (φ : Oracle n) (shrink : ℚ) (iterMax : ℕ)
    (hφ : ∀ j x, (φ j x).x = x) :
    ∀ (fuel i : ℕ) (valC : Fin n → ValGrad) (toFix : Fin n → Bool),
    (∀ j, toFix j = true → ((valC j).x).isFinite = true) →
    ∀ p ∈ (fix_step_loop φ shrink iterMax fuel i valC toFix).trace,
    ∀ j, p.2 j = true → (p.1 j).isFinite = true := by
  intro fuel
  induction fuel with
  | zero => intro i valC toFix hInv p hp; simp [fix_step_loop] at hp
  | succ fuel ih =>
    intro i valC toFix hInv p hp
    unfold fix_step_loop at hp
    split at hp
    · have hnext : ∀ j, toFix j = true → (fix_step_next_x shrink valC toFix j).isFinite = true := by
        intro j hj
        unfold fix_step_next_x
        rw [if_pos hj]
        exact mulParam_isFinite _ _ (hInv j hj)
      simp only [List.mem_cons] at hp
      rcases hp with hp | hp
      · subst hp
        intro j hj
        exact hnext j hj
      · refine ih _ _ _ ?_ p hp
        intro k hk
        have hk1 := (Bool.and_eq_true _ _).mp hk |>.1
        show ((eval_oracle φ (fix_step_next_x shrink valC toFix) k).x).isFinite = true
        unfold eval_oracle
        rw [hφ k _]
        exact hnext k hk1
    · simp at hp

theorem fix_step_size_noop {n : ℕ} (φ : Oracle n) (valC : Fin n → ValGrad)
    (active : Fin n → Bool) (shrink : ℚ) (iterMax : ℕ)
    (h : anyB (init_to_fix active valC) = false) :
    fix_step_size φ valC active shrink iterMax = ⟨0, valC, init_to_fix active valC, []⟩ := by
  unfold fix_step_size
  cases iterMax with
  | zero => rfl
  | succ m =>
    unfold fix_step_loop
    rw [if_neg]
    intro hc
    rw [h] at hc
    exact Bool.false_ne_true hc.2

theorem id_boxes_bracket_contract (n : ℕ) : BracketContract n (id_boxes n).bracket := by
  constructor <;> intros <;> rfl

theorem id_boxes_secant2_contract (n : ℕ) : Secant2Contract n (id_boxes n).secant2 := by
  constructor <;> intros <;> rfl

theorem id_boxes_update_contract (n : ℕ) : UpdateContract n (id_boxes n).update := by
  constructor <;> intros <;> rfl

theorem stall_boxes_bracket_contract (n : ℕ) : BracketContract n (stall_boxes n).bracket := by
  constructor <;> intros <;> rfl

theorem stall_boxes_secant2_contract (n : ℕ) : Secant2Contract n (stall_boxes n).secant2 := by
  constructor <;> intros <;> rfl

theorem stall_boxes_update_contract (n : ℕ) : UpdateContract n (stall_boxes n).update := by
  constructor <;> intros <;> rfl

/-- The elements of `hager_zhang` that still need fixing after the repair
loop were active, hence not externally converged. -/
theorem hz_fix_toFix_active {n : ℕ} (φ : Oracle n) (machEps : ℚ) (initialStep : Fin n → Fl)
    (valInit? val0? : Option (Fin n → ValGrad)) (initConv? : Option (Fin n → Bool))
    (stepShrink : ℚ) (i : Fin n)
    (h : (hz_fix φ machEps initialStep valInit? val0? initConv? stepShrink).toFix i = true) :
    active_mask (init_conv_of initConv?)
      (valid_inputs (prep_val_0 φ val0?) (prep_val_initial φ initialStep valInit?)) i = true := by
  unfold hz_fix fix_step_size at h
  have h2 := fix_step_loop_toFix_mono φ stepShrink (iter_max_for machEps) _ _ _ _ i h
  exact ((Bool.and_eq_true _ _).mp h2).1

/-- Pre-converged elements of `hager_zhang` come out converged and
unfailed, with both endpoints equal to the zero-point evaluation. -/
theorem hz_preconverged {n : ℕ} (φ : Oracle n) (B : Boxes n)
    (hB : BracketContract n B.bracket) (hS : Secant2Contract n B.secant2)
    (hU : UpdateContract n B.update) (machEps : ℚ) (initialStep : Fin n → Fl)
    (valInit? val0? : Option (Fin n → ValGrad)) (initConv : Fin n → Bool)
    (eps γ stepShrink : ℚ) (maxIter : ℕ) (i : Fin n) (hi : initConv i = true) :
    (hager_zhang φ B machEps initialStep valInit? val0? (some initConv) eps γ stepShrink
      maxIter).converged i = true ∧
    (hager_zhang φ B machEps initialStep valInit? val0? (some initConv) eps γ stepShrink
      maxIter).failed i = false ∧
    (hager_zhang φ B machEps initialStep valInit? val0? (some initConv) eps γ stepShrink
      maxIter).left i = prep_val_0 φ val0? i ∧
    (hager_zhang φ B machEps initialStep valInit? val0? (some initConv) eps γ stepShrink
      maxIter).right i = prep_val_0 φ val0? i := by
  have hic : init_conv_of (some initConv) i = true := hi
  have hia : active_mask (init_conv_of (some initConv))
      (valid_inputs (prep_val_0 φ val0?) (prep_val_initial φ initialStep valInit?)) i = false := by
    unfold active_mask
    rw [hic]
    rfl
  have hfx : (hz_fix φ machEps initialStep valInit? val0? (some initConv) stepShrink).toFix i
      = false := by
    cases hv : (hz_fix φ machEps initialStep valInit? val0? (some initConv) stepShrink).toFix i
    · rfl
    · rw [hz_fix_toFix_active φ machEps initialStep valInit? val0? (some initConv) stepShrink i
        hv] at hia
      exact absurd hia (by simp)
  have hconv : (hz_init_interval φ machEps initialStep valInit? val0? (some initConv)
      stepShrink).converged i = true := hic
  have hfail : (hz_init_interval φ machEps initialStep valInit? val0? (some initConv)
      stepShrink).failed i = false := by
    show (init_failed_mask _ _ i ||
      (hz_fix φ machEps initialStep valInit? val0? (some initConv) stepShrink).toFix i) = false
    rw [hfx]
    unfold init_failed_mask
    rw [hic]
    rfl
  have hleft : (hz_init_interval φ machEps initialStep valInit? val0? (some initConv)
      stepShrink).left i = prep_val_0 φ val0? i := rfl
  have hright : (hz_init_interval φ machEps initialStep valInit? val0? (some initConv)
      stepShrink).right i = prep_val_0 φ val0? i := by
    show val_where (init_conv_of (some initConv)) _ _ i = _
    unfold val_where
    rw [hic]
    simp
  unfold hager_zhang
  split
  · obtain ⟨c1, c2, c3, c4⟩ := bracket_and_search_conv φ B hB hS hU (prep_val_0 φ val0?)
      (f_lim_of eps (prep_val_0 φ val0?))
      (hz_init_interval φ machEps initialStep valInit? val0? (some initConv) stepShrink)
      maxIter γ i hconv
    exact ⟨c1, c2.trans hfail, c3.trans hleft, c4.trans hright⟩
  · exact ⟨hconv, hfail, hleft, hright⟩

/-- C2 counterexample: a valid one-element search with a trip budget of one
whose bracketing ends at once and whose (conforming) secant2 step stalls:
the main loop exhausts the budget, the returned element is neither
converged nor failed, contradicting the claim that every still-active
element is marked failed when the trip budget runs out. -/
theorem C2_counterexample :
    run_c2.converged 0 = false ∧ run_c2.failed 0 = false ∧ run_c2.iterations = 1 := by decide

/-- C2 amended: the loop does exit only when the trip budget is exhausted
or no element is active (first conjunct: the loop condition is false at the
returned state, so on exhaustion still-active elements are returned as they
are, with `converged` and `failed` both false); elements that exhausted the
budget during the bracketing phase without converging, and only those, are
marked failed by the pre-loop bookkeeping (second conjunct); the search
after bracketing is exactly the loop run on that pre-loop state (third
conjunct). -/
theorem C2_exhaustion_amended {n : ℕ} (φ : Oracle n) (B : Boxes n) (v0 : Fin n → ValGrad)
    (fLim : Fin n → Fl) (γ : ℚ) (maxIter : ℕ) (st : SearchState n) :
    loop_cond maxIter (line_search_after_bracketing φ B v0 fLim γ maxIter st) = false ∧
    (∀ i, (bracket_args B fLim st maxIter).failed i =
      ((B.bracket fLim st).failed i ||
        (!(bracket_converged_mask B fLim st i) &&
          decide (maxIter ≤ (B.bracket fLim st).iteration)))) ∧
    bracket_and_search φ B v0 fLim st maxIter γ =
      line_search_after_bracketing φ B v0 fLim γ maxIter (bracket_args B fLim st maxIter) := by
  refine ⟨?_, fun i => rfl, rfl⟩
  exact search_loop_exit φ B v0 fLim γ maxIter (maxIter - st.iterations) st le_rfl

/-- C3 counterexample: a pre-converged element whose initial-step
evaluation differs from the zero-point evaluation: the returned `right` is
the zero-point evaluation, not the (unrepaired, hence unchanged)
initial-step evaluation the claim requires. -/
theorem C3_counterexample :
    run_c3.right 0 = ⟨Fl.fin 0, Fl.fin 0, Fl.fin (-1)⟩ ∧
    vc_c3 0 = ⟨Fl.fin 9, Fl.fin 5, Fl.fin 5⟩ ∧
    (fix_step_size (flat_oracle 1) vc_c3
      (active_mask (init_conv_of (some (fun _ => true)))
        (valid_inputs v0_run vc_c3)) (mkRat 1 10) (iter_max_for (mkRat 1 (2 ^ 52)))).valC 0 =
      vc_c3 0 ∧
    run_c3.right 0 ≠ vc_c3 0 := by decide

/-- C3 amended: for every pre-converged element the search is indeed not
advanced and no oracle call is attributable to it (it is excluded from the
repair mask and frozen throughout), but both returned endpoints equal the
zero-point evaluation, not the initial-step evaluation: `left[i] =
right[i] = ` the evaluation at zero. -/
theorem C3_preconverged_amended {n : ℕ} (φ : Oracle n) (B : Boxes n)
    (hB : BracketContract n B.bracket) (hS : Secant2Contract n B.secant2)
    (hU : UpdateContract n B.update) (machEps : ℚ) (initialStep : Fin n → Fl)
    (valInit? val0? : Option (Fin n → ValGrad)) (initConv : Fin n → Bool)
    (eps γ stepShrink : ℚ) (maxIter : ℕ) (i : Fin n) (hi : initConv i = true) :
    (hager_zhang φ B machEps initialStep valInit? val0? (some initConv) eps γ stepShrink
      maxIter).converged i = true ∧
    (hager_zhang φ B machEps initialStep valInit? val0? (some initConv) eps γ stepShrink
      maxIter).left i = prep_val_0 φ val0? i ∧
    (hager_zhang φ B machEps initialStep valInit? val0? (some initConv) eps γ stepShrink
      maxIter).right i = prep_val_0 φ val0? i ∧
    init_to_fix (active_mask (init_conv_of (some initConv))
      (valid_inputs (prep_val_0 φ val0?) (prep_val_initial φ initialStep valInit?)))
      (prep_val_initial φ initialStep valInit?) i = false := by
  obtain ⟨c1, _, c3, c4⟩ := hz_preconverged φ B hB hS hU machEps initialStep valInit? val0?
    initConv eps γ stepShrink maxIter i hi
  refine ⟨c1, c3, c4, ?_⟩
  simp [init_to_fix, active_mask, init_conv_of, hi]

/-- C3 witness: the amended theorem applied to the concrete pre-converged
run of the counterexample. -/
theorem C3_witness :
    run_c3.converged 0 = true ∧
    run_c3.left 0 = prep_val_0 (flat_oracle 1) (some v0_run) 0 ∧
    run_c3.right 0 = prep_val_0 (flat_oracle 1) (some v0_run) 0 ∧
    init_to_fix (active_mask (init_conv_of (some (fun _ => true)))
      (valid_inputs (prep_val_0 (flat_oracle 1) (some v0_run))
        (prep_val_initial (flat_oracle 1) (fun _ => Fl.fin 9) (some vc_c3))))
      (prep_val_initial (flat_oracle 1) (fun _ => Fl.fin 9) (some vc_c3)) 0 = false :=
  C3_preconverged_amended (flat_oracle 1) (id_boxes 1) (id_boxes_bracket_contract 1)
    (id_boxes_secant2_contract 1) (id_boxes_update_contract 1) (mkRat 1 (2 ^ 52))
    (fun _ => Fl.fin 9) (some vc_c3) (some v0_run) (fun _ => true) (mkRat 1 1000000)
    (mkRat 33 50) (mkRat 1 10) 50 0 rfl

/-- C4: the code can return an element with `converged` true whose `left`
and `right` evaluation points differ (here the bracket endpoints are
adjacent representable values, the `_very_close` test after bracketing
declares convergence, and nothing ever forces the endpoints equal),
contradicting the result docstring, the usage example in the module
docstring (`results.left.x == result.right.x`) and spec section 4.7. -/
theorem C4_converged_unequal_endpoints :
    run_c4.converged 0 = true ∧ run_c4.failed 0 = false ∧
    run_c4.left 0 ≠ run_c4.right 0 ∧ (run_c4.left 0).x ≠ (run_c4.right 0).x := by decide

/-- C5: the monotonic latch invariant of the search after bracketing and of
bracket-and-search, for the black boxes constrained by their spec
contracts: an element that enters converged stays converged, an element
that enters failed stays failed, and a frozen element's endpoints are
returned unchanged. -/
theorem C5_monotonic_latch {n : ℕ} (φ : Oracle n) (B : Boxes n)
    (hB : BracketContract n B.bracket) (hS : Secant2Contract n B.secant2)
    (hU : UpdateContract n B.update) (v0 : Fin n → ValGrad) (fLim : Fin n → Fl)
    (γ : ℚ) (maxIter : ℕ) (st : SearchState n) (i : Fin n) :
    (st.converged i = true →
      (line_search_after_bracketing φ B v0 fLim γ maxIter st).converged i = true ∧
      (line_search_after_bracketing φ B v0 fLim γ maxIter st).left i = st.left i ∧
      (line_search_after_bracketing φ B v0 fLim γ maxIter st).right i = st.right i) ∧
    (st.failed i = true →
      (line_search_after_bracketing φ B v0 fLim γ maxIter st).failed i = true ∧
      (line_search_after_bracketing φ B v0 fLim γ maxIter st).left i = st.left i ∧
      (line_search_after_bracketing φ B v0 fLim γ maxIter st).right i = st.right i) ∧
    (st.converged i = true →
      (bracket_and_search φ B v0 fLim st maxIter γ).converged i = true ∧
      (bracket_and_search φ B v0 fLim st maxIter γ).left i = st.left i ∧
      (bracket_and_search φ B v0 fLim st maxIter γ).right i = st.right i) ∧
    (st.failed i = true →
      (bracket_and_search φ B v0 fLim st maxIter γ).failed i = true ∧
      (bracket_and_search φ B v0 fLim st maxIter γ).left i = st.left i ∧
      (bracket_and_search φ B v0 fLim st maxIter γ).right i = st.right i) := by
  refine ⟨?_, ?_, ?_, ?_⟩
  · intro h
    have hfr : (st.converged i || st.failed i) = true := by
      rw [h]
      rfl
    obtain ⟨c1, _, c3, c4⟩ := search_loop_frozen φ B hS hU v0 fLim γ maxIter i
      (maxIter - st.iterations) st hfr
    exact ⟨c1.trans h, c3, c4⟩
  · intro h
    have hfr : (st.converged i || st.failed i) = true := by
      rw [h]
      simp
    obtain ⟨_, c2, c3, c4⟩ := search_loop_frozen φ B hS hU v0 fLim γ maxIter i
      (maxIter - st.iterations) st hfr
    exact ⟨c2.trans h, c3, c4⟩
  · intro h
    obtain ⟨c1, _, c3, c4⟩ := bracket_and_search_conv φ B hB hS hU v0 fLim st maxIter γ i h
    exact ⟨c1, c3, c4⟩
  · intro h
    exact bracket_and_search_failed φ B hB hS hU v0 fLim st maxIter γ i h

/-- C5 witness: the latch applied to a concrete converged single-element
state. -/
theorem C5_witness :
    (line_search_after_bracketing (flat_oracle 1) (id_boxes 1) v0_run (fun _ => Fl.fin 100)
      (mkRat 33 50) 7 st_c5).converged 0 = true ∧
    (line_search_after_bracketing (flat_oracle 1) (id_boxes 1) v0_run (fun _ => Fl.fin 100)
      (mkRat 33 50) 7 st_c5).left 0 = st_c5.left 0 ∧
    (line_search_after_bracketing (flat_oracle 1) (id_boxes 1) v0_run (fun _ => Fl.fin 100)
      (mkRat 33 50) 7 st_c5).right 0 = st_c5.right 0 := by
  exact (C5_monotonic_latch (flat_oracle 1) (id_boxes 1) (id_boxes_bracket_contract 1)
    (id_boxes_secant2_contract 1) (id_boxes_update_contract 1) v0_run (fun _ => Fl.fin 100)
    (mkRat 33 50) 7 st_c5 0).1 (by decide)

/-- C10: an element whose externally supplied converged mask is true is
never marked failed, also on invalid inputs: the initial failure mask is
literally `(not init_converged) and (not valid_inputs)` (last conjunct),
the repair loop skips the element, and it stays frozen converged through
bracketing and the search, so the final result reports it converged and not
failed. -/
theorem C10_converged_precedence {n : ℕ} (φ : Oracle n) (B : Boxes n)
    (hB : BracketContract n B.bracket) (hS : Secant2Contract n B.secant2)
    (hU : UpdateContract n B.update) (machEps : ℚ) (initialStep : Fin n → Fl)
    (valInit? val0? : Option (Fin n → ValGrad)) (initConv : Fin n → Bool)
    (eps γ stepShrink : ℚ) (maxIter : ℕ) (i : Fin n) (hi : initConv i = true) :
    (hager_zhang φ B machEps initialStep valInit? val0? (some initConv) eps γ stepShrink
      maxIter).converged i = true ∧
    (hager_zhang φ B machEps initialStep valInit? val0? (some initConv) eps γ stepShrink
      maxIter).failed i = false ∧
    (∀ (valid : Fin n → Bool) (j : Fin n),
      init_failed_mask initConv valid j = (!(initConv j) && !(valid j))) := by
  obtain ⟨c1, c2, _, _⟩ := hz_preconverged φ B hB hS hU machEps initialStep valInit? val0?
    initConv eps γ stepShrink maxIter i hi
  exact ⟨c1, c2, fun valid j => rfl⟩

theorem anyB_imp {n : ℕ} (p q : Fin n → Bool) (h : ∀ i, p i = true → q i = true)
    (hp : anyB p = true) : anyB q = true := by
  unfold anyB at hp ⊢
  obtain ⟨i, hi⟩ := of_decide_eq_true hp
  exact decide_eq_true ⟨i, h i hi⟩

/-- C1 counterexample: an element whose secant2 step under-shrank the
bracket (`[0,4]` to `[0,4]`, not below `0.66` of the old width) while the
function is flat on both the old and the new interval: the claim says it is
marked converged with no bisection oracle evaluation, but the code sends it
to the bisection fallback (one oracle evaluation is counted) and does not
mark it converged. -/
theorem C1_counterexample :
    sufficient_shrinkage_mask (mkRat 33 50) curr_c1 s2res_c1 0 = false ∧
    func_is_flat_mask curr_c1 s2res_c1 0 = true ∧
    run_c1.converged 0 = false ∧
    run_c1.failed 0 = false ∧
    run_c1.func_evals = s2res_c1.func_evals + 1 := by decide

/-- C1 amended: after a secant2 step, for every element that neither
converged nor failed in it, the code declares converged exactly the
elements that shrank sufficiently AND are flat on both the old and the new
interval (first conjunct); when no element under-shrank there is no
bisection evaluation (second conjunct) and every element not sent to
bisection keeps its flags and endpoints (third conjunct); when some element
under-shrank (flat or not) the batched midpoint evaluation is counted
(fourth conjunct) and each under-shrunk element whose midpoint evaluation
is non-finite is marked failed, the others receiving the masked
single-point update. -/
theorem C1_shrinkage_flatness_amended {n : ℕ} (φ : Oracle n) (B : Boxes n)
    (hU : UpdateContract n B.update) (fLim : Fin n → Fl) (γ : ℚ)
    (curr s2res : SearchState n) (shouldCheck : Fin n → Bool) :
    (∀ i, (do_check_shrinkage φ B fLim γ curr s2res shouldCheck).converged i =
      (s2res.converged i || new_converged_mask γ curr s2res shouldCheck i)) ∧
    (anyB (needs_inner_bisect_mask γ curr s2res shouldCheck) = false →
      (do_check_shrinkage φ B fLim γ curr s2res shouldCheck).func_evals = s2res.func_evals) ∧
    (∀ i, needs_inner_bisect_mask γ curr s2res shouldCheck i = false →
      (do_check_shrinkage φ B fLim γ curr s2res shouldCheck).failed i = s2res.failed i ∧
      (do_check_shrinkage φ B fLim γ curr s2res shouldCheck).left i = s2res.left i ∧
      (do_check_shrinkage φ B fLim γ curr s2res shouldCheck).right i = s2res.right i) ∧
    (anyB (needs_inner_bisect_mask γ curr s2res shouldCheck) = true →
      s2res.func_evals + 1 ≤ (do_check_shrinkage φ B fLim γ curr s2res shouldCheck).func_evals ∧
      ∀ i, needs_inner_bisect_mask γ curr s2res shouldCheck i = true →
        is_finite_vg (eval_oracle φ
          (midpoint_of (inner_bisect_args_of γ curr s2res shouldCheck)) i) = false →
        (do_check_shrinkage φ B fLim γ curr s2res shouldCheck).failed i = true) := by
  refine ⟨?_, ?_, ?_, ?_⟩
  · intro i
    unfold do_check_shrinkage
    split
    · unfold line_search_inner_bisection
      split <;> rfl
    · rfl
  · intro h
    unfold do_check_shrinkage
    rw [if_neg (by simp [h])]
    rfl
  · intro i hni
    unfold do_check_shrinkage
    split
    · obtain ⟨_, h2, h3, h4⟩ := line_search_inner_bisection_frozen φ B hU fLim
        (inner_bisect_args_of γ curr s2res shouldCheck)
        (needs_inner_bisect_mask γ curr s2res shouldCheck) i hni
      exact ⟨h2, h3, h4⟩
    · exact ⟨rfl, rfl, rfl⟩
  · intro h
    have hfail : ∀ i, needs_inner_bisect_mask γ curr s2res shouldCheck i = true →
        is_finite_vg (eval_oracle φ
          (midpoint_of (inner_bisect_args_of γ curr s2res shouldCheck)) i) = false →
        (next_interval_of φ (inner_bisect_args_of γ curr s2res shouldCheck)
          (needs_inner_bisect_mask γ curr s2res shouldCheck)).failed i = true := by
      intro i hni hmid
      show ((inner_bisect_args_of γ curr s2res shouldCheck).failed i ||
        (needs_inner_bisect_mask γ curr s2res shouldCheck i &&
          !(is_finite_vg (eval_oracle φ
            (midpoint_of (inner_bisect_args_of γ curr s2res shouldCheck)) i)))) = true
      rw [hni, hmid]
      simp
    constructor
    · unfold do_check_shrinkage
      rw [if_pos h]
      unfold line_search_inner_bisection
      split
      · exact Nat.le_add_right _ _
      · exact le_rfl
    · intro i hni hmid
      unfold do_check_shrinkage
      rw [if_pos h]
      unfold line_search_inner_bisection
      split
      · show ((next_interval_of φ (inner_bisect_args_of γ curr s2res shouldCheck)
          (needs_inner_bisect_mask γ curr s2res shouldCheck)).failed i ||
          (update_result_of φ B fLim (inner_bisect_args_of γ curr s2res shouldCheck)
            (needs_inner_bisect_mask γ curr s2res shouldCheck)).failed i) = true
        rw [hfail i hni hmid]
        rfl
      · exact hfail i hni hmid

/-- C1 witness: the amended theorem applied to the concrete state with no
element needing bisection. -/
theorem C1_witness :
    (do_check_shrinkage (flat_oracle 1) (id_boxes 1) (fun _ => Fl.fin 100) (mkRat 33 50)
      curr_c1 s2res_c1 (fun _ => false)).func_evals = s2res_c1.func_evals :=
  (C1_shrinkage_flatness_amended (flat_oracle 1) (id_boxes 1) (id_boxes_update_contract 1)
    (fun _ => Fl.fin 100) (mkRat 33 50) curr_c1 s2res_c1 (fun _ => false)).2.1 (by decide)

/-- C6 counterexample: a loop trip whose bisection fallback applies a
single-point update reporting one inner iteration trip: the shared
iteration counter advances by two in that trip, not by exactly one as the
claim states. -/
theorem C6_counterexample :
    run_c6.iterations = curr_c1.iterations + 2 ∧ curr_c1.iterations = 3 := by decide

/-- C6 amended: each loop trip advances the shared iteration counter by one
PLUS the iteration count reported by the single-point update when the
bisection fallback applies it, and sets the shared evaluation counter to
secant2's cumulative count, plus one for the batched midpoint evaluation
when some element under-shrank, plus the update's reported evaluation count
when the update is applied; elements masked inactive trigger none of these
additions (the three branch conditions are the reduce-any of the
corresponding masks). -/
theorem C6_counters_amended {n : ℕ} (φ : Oracle n) (B : Boxes n) (v0 : Fin n → ValGrad)
    (fLim : Fin n → Fl) (γ : ℚ) (st : SearchState n) :
    (anyB (needs_inner_bisect_mask γ st (secant2_step B v0 fLim st)
        (should_check_mask B v0 fLim st)) = false →
      (loop_body φ B v0 fLim γ st).iterations = st.iterations + 1 ∧
      (loop_body φ B v0 fLim γ st).func_evals = (B.secant2 v0 fLim st).num_evals) ∧
    (anyB (needs_inner_bisect_mask γ st (secant2_step B v0 fLim st)
        (should_check_mask B v0 fLim st)) = true →
      anyB (still_active_mask φ (inner_bisect_args_of γ st (secant2_step B v0 fLim st)
        (should_check_mask B v0 fLim st)) (needs_inner_bisect_mask γ st
        (secant2_step B v0 fLim st) (should_check_mask B v0 fLim st))) = false →
      (loop_body φ B v0 fLim γ st).iterations = st.iterations + 1 ∧
      (loop_body φ B v0 fLim γ st).func_evals = (B.secant2 v0 fLim st).num_evals + 1) ∧
    (anyB (needs_inner_bisect_mask γ st (secant2_step B v0 fLim st)
        (should_check_mask B v0 fLim st)) = true →
      anyB (still_active_mask φ (inner_bisect_args_of γ st (secant2_step B v0 fLim st)
        (should_check_mask B v0 fLim st)) (needs_inner_bisect_mask γ st
        (secant2_step B v0 fLim st) (should_check_mask B v0 fLim st))) = true →
      (loop_body φ B v0 fLim γ st).iterations = st.iterations + 1 +
        (update_result_of φ B fLim (inner_bisect_args_of γ st (secant2_step B v0 fLim st)
          (should_check_mask B v0 fLim st)) (needs_inner_bisect_mask γ st
          (secant2_step B v0 fLim st) (should_check_mask B v0 fLim st))).iteration ∧
      (loop_body φ B v0 fLim γ st).func_evals = (B.secant2 v0 fLim st).num_evals + 1 +
        (update_result_of φ B fLim (inner_bisect_args_of γ st (secant2_step B v0 fLim st)
          (should_check_mask B v0 fLim st)) (needs_inner_bisect_mask γ st
          (secant2_step B v0 fLim st) (should_check_mask B v0 fLim st))).num_evals) := by
  have hsc : anyB (needs_inner_bisect_mask γ st (secant2_step B v0 fLim st)
      (should_check_mask B v0 fLim st)) = true →
      anyB (should_check_mask B v0 fLim st) = true := by
    refine anyB_imp _ _ ?_
    intro i hi
    exact ((Bool.and_eq_true _ _).mp hi).1
  refine ⟨?_, ?_, ?_⟩
  · intro h
    unfold loop_body next_args_of
    split
    · unfold do_check_shrinkage
      rw [if_neg (by simp [h])]
      exact ⟨rfl, rfl⟩
    · exact ⟨rfl, rfl⟩
  · intro h hsa
    unfold loop_body next_args_of
    rw [if_pos (hsc h)]
    unfold do_check_shrinkage
    rw [if_pos h]
    unfold line_search_inner_bisection
    rw [if_neg (by simp [hsa])]
    exact ⟨rfl, rfl⟩
  · intro h hsa
    unfold loop_body next_args_of
    rw [if_pos (hsc h)]
    unfold do_check_shrinkage
    rw [if_pos h]
    unfold line_search_inner_bisection
    rw [if_pos hsa]
    exact ⟨rfl, rfl⟩

/-- C6 witness: the amended accounting applied to the concrete trip of the
counterexample (bisection taken, update applied). -/
theorem C6_witness :
    (loop_body (flat_oracle 1) (bump_boxes 1) v0_run (fun _ => Fl.fin 100) (mkRat 33 50)
      curr_c1).iterations = curr_c1.iterations + 1 +
      (update_result_of (flat_oracle 1) (bump_boxes 1) (fun _ => Fl.fin 100)
        (inner_bisect_args_of (mkRat 33 50) curr_c1
          (secant2_step (bump_boxes 1) v0_run (fun _ => Fl.fin 100) curr_c1)
          (should_check_mask (bump_boxes 1) v0_run (fun _ => Fl.fin 100) curr_c1))
        (needs_inner_bisect_mask (mkRat 33 50) curr_c1
          (secant2_step (bump_boxes 1) v0_run (fun _ => Fl.fin 100) curr_c1)
          (should_check_mask (bump_boxes 1) v0_run (fun _ => Fl.fin 100) curr_c1))).iteration ∧
    (loop_body (flat_oracle 1) (bump_boxes 1) v0_run (fun _ => Fl.fin 100) (mkRat 33 50)
      curr_c1).func_evals =
      ((bump_boxes 1).secant2 v0_run (fun _ => Fl.fin 100) curr_c1).num_evals + 1 +
      (update_result_of (flat_oracle 1) (bump_boxes 1) (fun _ => Fl.fin 100)
        (inner_bisect_args_of (mkRat 33 50) curr_c1
          (secant2_step (bump_boxes 1) v0_run (fun _ => Fl.fin 100) curr_c1)
          (should_check_mask (bump_boxes 1) v0_run (fun _ => Fl.fin 100) curr_c1))
        (needs_inner_bisect_mask (mkRat 33 50) curr_c1
          (secant2_step (bump_boxes 1) v0_run (fun _ => Fl.fin 100) curr_c1)
          (should_check_mask (bump_boxes 1) v0_run (fun _ => Fl.fin 100) curr_c1))).num_evals :=
  (C6_counters_amended (flat_oracle 1) (bump_boxes 1) v0_run (fun _ => Fl.fin 100)
    (mkRat 33 50) curr_c1).2.2 (by decide) (by decide)

/-- C7: the step-size repair loop performs zero oracle evaluations (and
returns its inputs unchanged) when no active element has a non-finite
initial evaluation; it makes at most `ceil(-log2(machine eps))` trips, one
batched oracle call per trip (the trip counter equals the length of the
call trace); every element still marked to-fix at exit is still non-finite
and is marked failed in the initial interval of `hager_zhang`.  The first
conjunct records the ceiling for the three binary dtype epsilons
`2 ^ (-10)`, `2 ^ (-23)` and `2 ^ (-52)` (float16, float32, float64). -/
theorem C7_repair_ceiling {n : ℕ} (φ : Oracle n) (valC : Fin n → ValGrad)
    (active : Fin n → Bool) (shrink machEps : ℚ) :
    (iter_max_for (mkRat 1 (2 ^ 10)) = 10 ∧ iter_max_for (mkRat 1 (2 ^ 23)) = 23 ∧
      iter_max_for (mkRat 1 (2 ^ 52)) = 52) ∧
    (anyB (init_to_fix active valC) = false →
      fix_step_size φ valC active shrink (iter_max_for machEps) =
        ⟨0, valC, init_to_fix active valC, []⟩) ∧
    (fix_step_size φ valC active shrink (iter_max_for machEps)).evals ≤
      iter_max_for machEps ∧
    (fix_step_size φ valC active shrink (iter_max_for machEps)).evals =
      (fix_step_size φ valC active shrink (iter_max_for machEps)).trace.length ∧
    (∀ i, (fix_step_size φ valC active shrink (iter_max_for machEps)).toFix i = true →
      is_finite_vg ((fix_step_size φ valC active shrink (iter_max_for machEps)).valC i)
        = false) ∧
    (∀ (machEps2 : ℚ) (initialStep : Fin n → Fl) (valInit? val0? : Option (Fin n → ValGrad))
      (initConv? : Option (Fin n → Bool)) (stepShrink : ℚ) (i : Fin n),
      (hz_fix φ machEps2 initialStep valInit? val0? initConv? stepShrink).toFix i = true →
      (hz_init_interval φ machEps2 initialStep valInit? val0? initConv? stepShrink).failed i
        = true) := by
  refine ⟨by decide, fix_step_size_noop φ valC active shrink (iter_max_for machEps), ?_, ?_,
    ?_, ?_⟩
  · simpa using fix_step_loop_evals_le φ shrink (iter_max_for machEps) (iter_max_for machEps)
      0 valC (init_to_fix active valC)
  · simpa using fix_step_loop_trace_len φ shrink (iter_max_for machEps) (iter_max_for machEps)
      0 valC (init_to_fix active valC)
  · refine fix_step_loop_toFix_nonfinite φ shrink (iter_max_for machEps) (iter_max_for machEps)
      0 valC (init_to_fix active valC) ?_
    intro j hj
    simpa using ((Bool.and_eq_true _ _).mp hj).2
  · intro machEps2 initialStep valInit? val0? initConv? stepShrink i h
    show (init_failed_mask _ _ i ||
      (hz_fix φ machEps2 initialStep valInit? val0? initConv? stepShrink).toFix i) = true
    rw [h]
    simp

/-- C7 witness: the repair loop of a batch with nothing to repair is a
no-op with zero evaluations. -/
theorem C7_witness :
    fix_step_size (flat_oracle 1) v0_run (fun _ => true) (mkRat 1 10)
      (iter_max_for (mkRat 1 (2 ^ 52))) =
      ⟨0, v0_run, init_to_fix (fun _ => true) v0_run, []⟩ :=
  (C7_repair_ceiling (flat_oracle 1) v0_run (fun _ => true) (mkRat 1 10)
    (mkRat 1 (2 ^ 52))).2.1 (by decide)

/-- C8 counterexample: a batch whose element `0` needs step repair while
element `1` is invalid with step `x = inf`: the single repair trip passes
the full batched vector to the oracle, and its component for the inactive,
invalid element `1` is non-finite, contradicting the claim that every
component passed to the oracle is finite. -/
theorem C8_counterexample :
    fix_c8.trace.map (fun p => (p.1 1).isFinite) = [false] ∧
    act_c8 1 = false ∧
    valid_inputs v0_c8 vc_c8 1 = false ∧
    fix_c8.evals = 1 := by decide

/-- C8 amended: within one batched repair-loop call, only the components
belonging to elements currently being repaired are guaranteed finite: if
every to-fix element has a finite step on entry (which `hager_zhang`
guarantees, since the active mask implies the validity predicate, which
contains finiteness of the initial step — second conjunct — and the to-fix
mask implies activity — third conjunct), then in every traced oracle call
the components of the then to-fix elements are finite; components of other
elements are passed through unchanged and may be non-finite. -/
theorem C8_finite_steps_amended {n : ℕ} (φ : Oracle n) (shrink : ℚ) (iterMax fuel i0 : ℕ)
    (valC : Fin n → ValGrad) (toFix : Fin n → Bool)
    (hφ : ∀ j x, (φ j x).x = x)
    (hInv : ∀ j, toFix j = true → ((valC j).x).isFinite = true) :
    (∀ p ∈ (fix_step_loop φ shrink iterMax fuel i0 valC toFix).trace,
      ∀ j, p.2 j = true → (p.1 j).isFinite = true) ∧
    (∀ (v0 vinit : Fin n → ValGrad) (ic : Fin n → Bool) (j : Fin n),
      active_mask ic (valid_inputs v0 vinit) j = true → ((vinit j).x).isFinite = true) ∧
    (∀ (a : Fin n → Bool) (vc : Fin n → ValGrad) (j : Fin n),
      init_to_fix a vc j = true → a j = true) := by
  refine ⟨fix_step_loop_trace_finite φ shrink iterMax hφ fuel i0 valC toFix hInv, ?_, ?_⟩
  · intro v0 vinit ic j h
    simp only [active_mask, valid_inputs] at h
    have h2 := ((Bool.and_eq_true _ _).mp h).2
    have h3 := ((Bool.and_eq_true _ _).mp h2).1
    exact ((Bool.and_eq_true _ _).mp h3).2
  · intro a vc j h
    exact ((Bool.and_eq_true _ _).mp h).1

/-- C8 witness: in the concrete counterexample run the traced call's
component for the element under repair (element `0`) is finite. -/
theorem C8_witness :
    (fix_step_next_x (mkRat 1 10) vc_c8 (init_to_fix act_c8 vc_c8) 0).isFinite = true :=
  (C8_finite_steps_amended (flat_oracle 2) (mkRat 1 10) (iter_max_for (mkRat 1 (2 ^ 10)))
    (iter_max_for (mkRat 1 (2 ^ 10))) 0 vc_c8 (init_to_fix act_c8 vc_c8)
    (fun j x => rfl) (by decide)).1
    (fix_step_next_x (mkRat 1 10) vc_c8 (init_to_fix act_c8 vc_c8), init_to_fix act_c8 vc_c8)
    (by decide) 0 (by decide)

/-- C10 witness: the theorem applied to a concrete pre-converged element
with thoroughly invalid inputs (non-finite zero-point value, nonnegative
zero derivative, non-finite and non-positive initial step). -/
theorem C10_witness :
    (hager_zhang (flat_oracle 1) (id_boxes 1) (mkRat 1 (2 ^ 52)) (fun _ => Fl.fin 0)
      (some (fun _ => ⟨Fl.ninf, Fl.nan, Fl.fin 2⟩)) (some (fun _ => ⟨Fl.fin 0, Fl.inf, Fl.fin 1⟩))
      (some (fun _ => true)) (mkRat 1 1000000) (mkRat 33 50) (mkRat 1 10) 50).converged 0 =
      true ∧
    (hager_zhang (flat_oracle 1) (id_boxes 1) (mkRat 1 (2 ^ 52)) (fun _ => Fl.fin 0)
      (some (fun _ => ⟨Fl.ninf, Fl.nan, Fl.fin 2⟩)) (some (fun _ => ⟨Fl.fin 0, Fl.inf, Fl.fin 1⟩))
      (some (fun _ => true)) (mkRat 1 1000000) (mkRat 33 50) (mkRat 1 10) 50).failed 0 =
      false ∧
    (∀ (valid : Fin 1 → Bool) (j : Fin 1),
      init_failed_mask (fun _ => true) valid j = (!((fun (_ : Fin 1) => true) j) && !(valid j))) :=
  C10_converged_precedence (flat_oracle 1) (id_boxes 1) (id_boxes_bracket_contract 1)
    (id_boxes_secant2_contract 1) (id_boxes_update_contract 1) (mkRat 1 (2 ^ 52))
    (fun _ => Fl.fin 0) (some (fun _ => ⟨Fl.ninf, Fl.nan, Fl.fin 2⟩))
    (some (fun _ => ⟨Fl.fin 0, Fl.inf, Fl.fin 1⟩)) (fun _ => true) (mkRat 1 1000000)
    (mkRat 33 50) (mkRat 1 10) 50 0 rfl

end HZ
